import Mathlib

/-
Verification of the attendance-system core (src/app.py) against its
specification.  The pandas DataFrame is modelled column-major as an
association list from column labels to the list of cell values of that
column (row-aligned by index); Python dicts keyed by strings are modelled
by the same association-list operations.  Fallible Python code (KeyError,
IndexError, caught by the try/except blocks) is modelled with Except.
-/

set_option autoImplicit false

namespace Attendance

/-- Cell values of the spreadsheet table: strings or integers. -/
inductive Cell where
  | str (s : String)
  | num (n : Int)
deriving DecidableEq, Repr

/-- Association list with string keys, the model for both pandas
DataFrames (values are cell columns) and Python dicts. -/
abbrev AList (α : Type) := List (String × α)

/-- Keys of an association list, in order. -/
def dkeys {α : Type} (m : AList α) : List String := m.map Prod.fst

/-- Lookup of the first entry with the given key (Python dict access or
pandas single-label column access). -/
def dlookup {α : Type} (m : AList α) (k : String) : Option α :=
  (m.find? (fun p => p.1 == k)).map Prod.snd

/-- Assignment `m[k] = v`: overwrites the entry in place when the key is
present (keeping its position), appends a new entry at the end otherwise.
This is both Python dict assignment and pandas `df[label] = values`. -/
def dinsert {α : Type} (m : AList α) (k : String) (v : α) : AList α :=
  if m.any (fun p => p.1 == k) then
    m.map (fun p => if p.1 == k then (k, v) else p)
  else m ++ [(k, v)]

/-- A pandas DataFrame: ordered labelled columns, each a list of cells. -/
abbrev Table := AList (List Cell)

/-- Column labels of a table, in order (`df.columns`). -/
def colNames (t : Table) : List String := dkeys t

/-- Number of rows (length of the first column; tables produced by pandas
are rectangular, so any column would do). -/
def nrows (t : Table) : Nat :=
  match t with
  | [] => 0
  | c :: _ => c.2.length

/-- Column read `df[name]`. -/
def getCol (t : Table) (name : String) : Option (List Cell) := dlookup t name

/-- Column write `df[name] = vals`. -/
def setCol (t : Table) (name : String) (vals : List Cell) : Table :=
  dinsert t name vals

/-- Column selection / reordering `df[names]`; errors when a label is
missing (pandas raises KeyError). -/
def select (t : Table) : List String → Except Unit Table
  | [] => Except.ok []
  | n :: ns =>
    match getCol t n with
    | none => Except.error ()
    | some v =>
      match select t ns with
      | Except.error e => Except.error e
      | Except.ok u => Except.ok ((n, v) :: u)

/-- The labels of `setCol t n v`, computed at the label level. -/
def namesAfterSet (ns : List String) (n : String) : List String :=
  if ns.contains n then ns else ns ++ [n]

/-- Conversion of an optional value into Except (a Python KeyError or
IndexError, caught by the surrounding try/except). -/
def ofOption {α : Type} (x : Option α) : Except Unit α :=
  match x with
  | some a => Except.ok a
  | none => Except.error ()

/-- Identifier patterns of `detect_data_columns` (src/app.py line 116). -/
def roll_patterns : List String := ["roll", "enrollment", "id", "number"]

/-- Name patterns of `detect_data_columns` (src/app.py line 117). -/
def name_patterns : List String := ["name", "student"]

/-- Test whether the second list is an initial segment of the first. -/
def startsWithL : List Char → List Char → Bool
  | _, [] => true
  | [], _ :: _ => false
  | a :: as, b :: bs => a == b && startsWithL as bs

/-- Test whether the second list occurs contiguously in the first. -/
def hasSubL : List Char → List Char → Bool
  | s, pat =>
    if startsWithL s pat then true
    else
      match s with
      | [] => false
      | _ :: tl => hasSubL tl pat

/-- Python `str.lower()`: character-wise case folding of the label (the
patterns and realistic labels are ASCII, where this agrees with Python). -/
def lowerChars (s : String) : List Char := s.toList.map Char.toLower

/-- Python substring test `pat in s.lower()`. -/
def containsSub (s pat : String) : Bool := hasSubL (lowerChars s) pat.toList

/-- Test of line 124: some identifier pattern occurs in the lower-cased
column label. -/
def matchesRoll (c : String) : Bool :=
  roll_patterns.any (fun p => containsSub c p)

/-- Test of line 126: some name pattern occurs in the lower-cased column
label. -/
def matchesName (c : String) : Bool :=
  name_patterns.any (fun p => containsSub c p)

/-- The `for col in df.columns` loop of `detect_data_columns`
(src/app.py lines 122-127): `if not roll_col and <id pattern>:
roll_col = col; elif not name_col and <name pattern>: name_col = col`. -/
def scan : List String → Option String × Option String → Option String × Option String
  | [], acc => acc
  | c :: cs, (r, n) =>
    if r.isNone && matchesRoll c then scan cs (some c, n)
    else if n.isNone && matchesName c then scan cs (r, some c)
    else scan cs (r, n)

/-- Python `x or d` for an optional string: falls through to `d` when `x`
is None or the empty string (the only falsy str). -/
def pyOr (x : Option String) (d : Except Unit String) : Except Unit String :=
  match x with
  | some s => if s.isEmpty then d else Except.ok s
  | none => d

/-- Positional access `cols[i]` on the column labels; IndexError when out
of range. -/
def getIdx (cols : List String) (i : Nat) : Except Unit String :=
  match cols.get? i with
  | some c => Except.ok c
  | none => Except.error ()

/-- `detect_data_columns` (src/app.py lines 111-130): run the scan, then
`return roll_col or df.columns[0], name_col or df.columns[1]`. -/
def detect_data_columns (cols : List String) : Except Unit (String × String) :=
  match scan cols (none, none) with
  | (r, n) =>
    match pyOr r (getIdx cols 0) with
    | Except.error e => Except.error e
    | Except.ok roll_col =>
      match pyOr n (getIdx cols 1) with
      | Except.error e => Except.error e
      | Except.ok name_col => Except.ok (roll_col, name_col)

/-- One entry of `classes_data` (src/app.py lines 99-104). -/
structure ClassRecord where
  dataframe : Table
  file_path : String
  roll_column : String
  name_column : String
deriving DecidableEq, Repr

/-- Splitting a character list on a separator character. -/
def splitOnChar (sep : Char) : List Char → List Char → List (List Char)
  | [], acc => [acc.reverse]
  | c :: cs, acc =>
    if c == sep then acc.reverse :: splitOnChar sep cs []
    else splitOnChar sep cs (c :: acc)

/-- Python `os.path.basename(file_path).split('.')[0]` (line 89): the part
of the last path segment before the first dot. -/
def class_name_of (file_path : String) : String :=
  String.mk
    ((splitOnChar '.' ((splitOnChar '/' file_path.toList []).getLastD []) []).headD [])

/-- Lines 87-88: `if "Total" not in df.columns: df["Total"] = 0`. -/
def add_total_if_missing (df : Table) : Table :=
  if (colNames df).contains "Total" then df
  else setCol df "Total" (List.replicate (nrows df) (Cell.num 0))

/-- The list comprehension of lines 95, 282 and 288: the labels other
than the roll, name and Total labels, in their original order. -/
def otherColumns (ns : List String) (roll_col name_col : String) : List String :=
  ns.filter (fun c => !(c == roll_col || c == name_col || c == "Total"))

/-- The reordering of lines 94-96 and 287-289: select
`[roll_col, name_col, "Total"] + other_columns`. -/
def reorder (df : Table) (roll_col name_col : String) : Except Unit Table :=
  select df ([roll_col, name_col, "Total"] ++ otherColumns (colNames df) roll_col name_col)

/-- The data part of `add_new_class` (src/app.py lines 84-104): add the
Total column when missing, detect the roll and name columns, reorder, and
build the class record. -/
def add_new_class (file_path : String) (df0 : Table) : Except Unit ClassRecord :=
  let df := add_total_if_missing df0
  match detect_data_columns (colNames df) with
  | Except.error e => Except.error e
  | Except.ok (roll_col, name_col) =>
    match reorder df roll_col name_col with
    | Except.error e => Except.error e
    | Except.ok df1 =>
      Except.ok { dataframe := df1, file_path := file_path,
                  roll_column := roll_col, name_column := name_col }

/-- Python `str(...)` on a cell value. -/
def cellStr : Cell → String
  | .str s => s
  | .num n => toString n

/-- The per-class attendance dict `attendance_records[class_name]`. -/
abbrev Ledger := AList Bool

/-- The mutable state of the application: `classes_data` keyed by class
name, and `attendance_records` keyed by class name. -/
structure AppState where
  classes_data : AList ClassRecord
  attendance_records : AList Ledger
deriving DecidableEq, Repr

/-- The state effect of `add_new_class`: on success the record is stored
under the derived class name (line 99); on failure the handler of line
108 shows a message and the state is unchanged. -/
def add_new_class_state (s : AppState) (file_path : String) (df0 : Table) : AppState :=
  match add_new_class file_path df0 with
  | Except.ok cls =>
    { s with classes_data := dinsert s.classes_data (class_name_of file_path) cls }
  | Except.error _ => s

/-- The ledger effect of `open_attendance_screen` plus `create_student_grid`
(src/app.py lines 161-163 and 206-239): create the dict for the class when
missing, then set `attendance_records[class_name][str(row[roll_col])] = False`
for every row of the dataframe. -/
def open_attendance_screen (s : AppState) (class_name : String) : Except Unit AppState :=
  let records :=
    if (dlookup s.attendance_records class_name).isSome then s.attendance_records
    else dinsert s.attendance_records class_name []
  match dlookup s.classes_data class_name with
  | none => Except.error ()
  | some cls =>
    match getCol cls.dataframe cls.roll_column with
    | none => Except.error ()
    | some rollVals =>
      let ledger := rollVals.foldl
        (fun l cell => dinsert l (cellStr cell) false)
        ((dlookup records class_name).getD [])
      Except.ok { s with attendance_records := dinsert records class_name ledger }

/-- `toggle_attendance` (src/app.py lines 252-261): flip the stored flag;
the button colour is set to the present colour exactly when the new state
`not current_status` is true, so the returned Bool is the new state as
communicated to the visual layer. -/
def toggle_attendance (s : AppState) (class_name student_id : String) :
    Except Unit (AppState × Bool) :=
  match dlookup s.attendance_records class_name with
  | none => Except.error ()
  | some ledger =>
    match dlookup ledger student_id with
    | none => Except.error ()
    | some current_status =>
      let ledger1 := dinsert ledger student_id (!current_status)
      Except.ok
        ({ s with attendance_records := dinsert s.attendance_records class_name ledger1 },
         !current_status)

/-- Line 275: `'Present' if attendance_records[class].get(student_id, False)
else 'Absent'`. -/
def attendance_status (ledger : Ledger) (student_id : String) : String :=
  if (dlookup ledger student_id).getD false then "Present" else "Absent"

/-- The count in line 285 for one row: the number of the given columns
whose value at row `i` is exactly the string "Present". -/
def countPresentRow (cols : Table) (i : Nat) : Nat :=
  (cols.filter (fun c => c.2.get? i == some (Cell.str "Present"))).length

/-- The attendance list of lines 272-276: one "Present"/"Absent" string
cell per roll-column value, looked up in the ledger with default absent. -/
def attendance_list_of (ledger : Ledger) (rollVals : List Cell) : List Cell :=
  rollVals.map (fun cell => Cell.str (attendance_status ledger (cellStr cell)))

/-- The recomputed Total column of line 285: one count per row. -/
def totalsOf (sub : Table) (n : Nat) : List Cell :=
  (List.range n).map (fun i => Cell.num (countPresentRow sub i))

/-- The pure part of `save_attendance` (src/app.py lines 263-292),
producing the table that is written to the file.  `df` is a copy of the
stored dataframe; `date` stands for `datetime.now().strftime("%d-%m-%y")`.
Steps: build the attendance list from the roll column and the ledger with
default absent, assign it under the date label, recompute Total as the
count of "Present" cells over the attendance columns, and reorder. -/
def save_attendance (cls : ClassRecord) (ledger : Ledger) (date : String) :
    Except Unit Table :=
  match getCol cls.dataframe cls.roll_column with
  | none => Except.error ()
  | some rollVals =>
    let df1 := setCol cls.dataframe date (attendance_list_of ledger rollVals)
    match select df1 (otherColumns (colNames df1) cls.roll_column cls.name_column) with
    | Except.error e => Except.error e
    | Except.ok sub =>
      let df2 := setCol df1 "Total" (totalsOf sub (nrows df1))
      reorder df2 cls.roll_column cls.name_column

/-- The written files, path to table. -/
abbrev FileSystem := AList Table

/-- The Except result of one `save_attendance` call on the current state:
the target path and the table written there. -/
def save_result (s : AppState) (class_name date : String) :
    Except Unit (String × Table) :=
  match dlookup s.classes_data class_name with
  | none => Except.error ()
  | some cls =>
    match dlookup s.attendance_records class_name with
    | none => Except.error ()
    | some ledger =>
      match save_attendance cls ledger date with
      | Except.error e => Except.error e
      | Except.ok out => Except.ok (cls.file_path, out)

/-- Full effect of `save_attendance`: the dataframe is copied (line 266)
and only the copy is updated, the result going to `to_excel` (line 292);
the in-memory state is returned as it was, any failure being caught by
the handler of line 297. -/
def save_attendance_state (s : AppState) (fs : FileSystem) (class_name date : String) :
    AppState × FileSystem × Except Unit Table :=
  match save_result s class_name date with
  | Except.ok (p, out) => (s, dinsert fs p out, Except.ok out)
  | Except.error e => (s, fs, Except.error e)

/-- Run `open_attendance_screen` and keep the state on error (no error
occurs on the traces where this is used). -/
def stepOpen (s : AppState) (class_name : String) : AppState :=
  ((open_attendance_screen s class_name).toOption).getD s

/-- Run `toggle_attendance` and keep the state on error. -/
def stepToggle (s : AppState) (class_name student_id : String) : AppState :=
  (((toggle_attendance s class_name student_id).toOption).map Prod.fst).getD s

/-- The attendance columns of a table: every column other than the roll,
name and Total columns (src/app.py line 282, spec section 4.4 step 3). -/
def attendanceColumns (t : Table) (roll_col name_col : String) : Table :=
  t.filter (fun c => !(c.1 == roll_col || c.1 == name_col || c.1 == "Total"))

/-- The property claimed of the column inference (spec-side formalisation,
kept verbatim for refutation): whenever some column matches an identifier
pattern and a different column matches a name pattern, detection returns a
distinct pair whose first component matches an identifier pattern and
whose second component matches a name pattern. -/
def detectReturnsMatchedPair : Prop :=
  ∀ cols : List String,
    (∃ c1 ∈ cols, ∃ c2 ∈ cols,
        c1 ≠ c2 ∧ matchesRoll c1 = true ∧ matchesName c2 = true) →
    ∃ a b, detect_data_columns cols = Except.ok (a, b) ∧
      a ≠ b ∧ matchesRoll a = true ∧ matchesName b = true

/-- First loaded roster for the stale-ledger trace: class file "A.xlsx",
one student with roll number 101. -/
def rosterOne : Table := [("Roll", [Cell.str "101"]), ("Name", [Cell.str "X"])]

/-- Second roster, loaded later from a different directory under the same
base name "A", with one student with roll number 202. -/
def rosterTwo : Table := [("Roll", [Cell.str "202"]), ("Name", [Cell.str "Y"])]

/-- A realisable trace: load "A.xlsx", open a session, toggle student
"101" to present, load "dirB/A.xlsx" (same derived class name "A", new
roster), then open a new session for "A". -/
def staleTrace : AppState :=
  stepOpen
    (add_new_class_state
      (stepToggle (stepOpen (add_new_class_state ⟨[], []⟩ "A.xlsx" rosterOne) "A") "A" "101")
      "dirB/A.xlsx" rosterTwo)
    "A"

/-- A two-row class with one prior date column (one cell of which holds
the lower-case string "present", which must not be counted). -/
def clsW : ClassRecord :=
  { dataframe := [("Roll", [Cell.str "1", Cell.str "2"]),
                  ("Name", [Cell.str "A", Cell.str "B"]),
                  ("Total", [Cell.num 0, Cell.num 0]),
                  ("01-01-24", [Cell.str "Present", Cell.str "present"])],
    file_path := "c.xlsx", roll_column := "Roll", name_column := "Name" }

/-- The table written by saving `clsW` with student "1" present on
"02-01-24": row 1 counts the prior "Present" and the new one (Total 2);
row 2 counts neither "present" nor "Absent" (Total 0). -/
def outW : Table :=
  [("Roll", [Cell.str "1", Cell.str "2"]),
   ("Name", [Cell.str "A", Cell.str "B"]),
   ("Total", [Cell.num 2, Cell.num 0]),
   ("01-01-24", [Cell.str "Present", Cell.str "present"]),
   ("02-01-24", [Cell.str "Present", Cell.str "Absent"])]

/-- A plain two-column input table for the load witness. -/
def tableW2 : Table := [("Roll", [Cell.str "101"]), ("Name", [Cell.str "X"])]

/-- The record produced by loading `tableW2`. -/
def recW : ClassRecord :=
  { dataframe := [("Roll", [Cell.str "101"]), ("Name", [Cell.str "X"]),
      ("Total", [Cell.num 0])],
    file_path := "A.xlsx", roll_column := "Roll", name_column := "Name" }

/-- A two-student class record for the idempotent-save witness. -/
def cls5 : ClassRecord :=
  { dataframe := [("Roll", [Cell.str "101", Cell.str "102"]),
                  ("Name", [Cell.str "A", Cell.str "B"]),
                  ("Total", [Cell.num 0, Cell.num 0])],
    file_path := "A.xlsx", roll_column := "Roll", name_column := "Name" }

/-- State holding `cls5` with student "101" toggled present. -/
def s5 : AppState :=
  { classes_data := [("A", cls5)], attendance_records := [("A", [("101", true)])] }

/-- The table written by saving `s5` on "05-06-24". -/
def out5 : Table :=
  [("Roll", [Cell.str "101", Cell.str "102"]),
   ("Name", [Cell.str "A", Cell.str "B"]),
   ("Total", [Cell.num 1, Cell.num 0]),
   ("05-06-24", [Cell.str "Present", Cell.str "Absent"])]

/-- A one-student class record for the session-open witness. -/
def cls6 : ClassRecord :=
  { dataframe := [("Roll", [Cell.str "7"]), ("Name", [Cell.str "Z"]),
      ("Total", [Cell.num 0])],
    file_path := "B.xlsx", roll_column := "Roll", name_column := "Name" }

/-- State holding `cls6` with no session opened yet. -/
def s6 : AppState := { classes_data := [("B", cls6)], attendance_records := [] }

/-- The state after opening a session for "B" in `s6`. -/
def s6open : AppState :=
  { classes_data := [("B", cls6)], attendance_records := [("B", [("7", false)])] }

section MapLemmas

variable {α : Type}

theorem dlookup_cons (p : String × α) (m : AList α) (k : String) :
    dlookup (p :: m) k = if p.1 == k then some p.2 else dlookup m k := by
  cases h : p.1 == k
  · simp [dlookup, List.find?_cons_of_neg, h]
  · simp [dlookup, List.find?_cons_of_pos, h]

theorem dlookup_eq_none_of_any_eq_false {m : AList α} {k : String}
    (h : m.any (fun p => p.1 == k) = false) : dlookup m k = none := by
  simp only [dlookup, Option.map_eq_none']
  rw [List.find?_eq_none]
  intro x hx
  simpa using List.any_eq_false.mp h x hx

theorem dlookup_replace_self {m : AList α} {k : String} {v : α}
    (h : m.any (fun p => p.1 == k) = true) :
    dlookup (m.map (fun p => if p.1 == k then (k, v) else p)) k = some v := by
  induction m with
  | nil => simp at h
  | cons p m ih =>
    by_cases hp : p.1 = k
    · simp [dlookup_cons, hp]
    · have h' : m.any (fun q => q.1 == k) = true := by
        rcases List.any_eq_true.mp h with ⟨q, hq, hqk⟩
        rcases List.mem_cons.mp hq with rfl | hq'
        · exact absurd (by simpa using hqk) hp
        · exact List.any_eq_true.mpr ⟨q, hq', hqk⟩
      have h2 := ih h'
      simp only [beq_iff_eq] at h2
      simp [dlookup_cons, hp, h2]

theorem dlookup_replace_ne {m : AList α} {k k' : String} {v : α} (hne : k' ≠ k) :
    dlookup (m.map (fun p => if p.1 == k then (k, v) else p)) k' = dlookup m k' := by
  induction m with
  | nil => rfl
  | cons p m ih =>
    have h2 := ih
    simp only [beq_iff_eq] at h2
    by_cases hp : p.1 = k
    · have hp' : p.1 ≠ k' := hp ▸ Ne.symm hne
      simp [dlookup_cons, hp, hp', Ne.symm hne, h2]
    · simp [dlookup_cons, hp, h2]

theorem dlookup_dinsert_self (m : AList α) (k : String) (v : α) :
    dlookup (dinsert m k v) k = some v := by
  unfold dinsert
  cases h : m.any (fun p => p.1 == k)
  · have hnone : dlookup m k = none := dlookup_eq_none_of_any_eq_false h
    simp only [dlookup, Option.map_eq_none'] at hnone
    simp [h, dlookup, List.find?_append, hnone]
  · simpa [h] using dlookup_replace_self h

theorem dlookup_dinsert_ne (m : AList α) (k k' : String) (v : α) (hne : k' ≠ k) :
    dlookup (dinsert m k v) k' = dlookup m k' := by
  unfold dinsert
  cases h : m.any (fun p => p.1 == k)
  · have hk : (k == k') = false := by
      simp [beq_eq_false_iff_ne, Ne.symm hne]
    simp [h, dlookup, List.find?_append, hk]
  · simpa [h] using dlookup_replace_ne hne

theorem key_beq_comm (a b : String) : (a == b) = (b == a) := by
  by_cases h : a = b
  · subst h; rfl
  · simp [beq_eq_false_iff_ne, h, Ne.symm h]

theorem any_key_eq_contains (m : AList α) (k : String) :
    m.any (fun p => p.1 == k) = (dkeys m).contains k := by
  induction m with
  | nil => rfl
  | cons p m ih =>
    simp only [List.any_cons, dkeys, List.map_cons, List.contains_cons, ih, dkeys]
    rw [key_beq_comm]

theorem dkeys_dinsert (m : AList α) (k : String) (v : α) :
    dkeys (dinsert m k v) = namesAfterSet (dkeys m) k := by
  unfold dinsert namesAfterSet
  rw [any_key_eq_contains]
  cases h : (dkeys m).contains k
  · simp [h, dkeys]
  · simp only [h, if_true]
    unfold dkeys
    rw [List.map_map]
    apply List.map_congr_left
    intro p _
    by_cases hp : p.1 = k
    · simp [hp]
    · simp [hp]

theorem dlookup_eq_none_iff (m : AList α) (k : String) :
    dlookup m k = none ↔ k ∉ dkeys m := by
  constructor
  · intro h hk
    obtain ⟨p, hp, hpk⟩ := List.mem_map.mp hk
    simp only [dlookup, Option.map_eq_none'] at h
    have := List.find?_eq_none.mp h p hp
    simp [hpk] at this
  · intro h
    apply dlookup_eq_none_of_any_eq_false
    rw [List.any_eq_false]
    intro p hp
    simp only [Bool.not_eq_true, beq_eq_false_iff_ne]
    intro hpk
    exact h (List.mem_map.mpr ⟨p, hp, hpk⟩)

end MapLemmas

section SelectLemmas

theorem select_ok_cons_iff {t : Table} {n : String} {ns : List String} {u : Table} :
    select t (n :: ns) = Except.ok u ↔
      ∃ v us, getCol t n = some v ∧ select t ns = Except.ok us ∧ u = (n, v) :: us := by
  constructor
  · intro h
    unfold select at h
    cases hg : getCol t n <;> rw [hg] at h
    · cases h
    · cases hs : select t ns <;> rw [hs] at h
      · cases h
      · exact ⟨_, _, rfl, rfl, (Except.ok.injEq _ _ ▸ h).symm⟩
  · rintro ⟨v, us, hg, hs, rfl⟩
    unfold select
    rw [hg, hs]

theorem select_ok_colNames {t : Table} {ns : List String} {u : Table}
    (h : select t ns = Except.ok u) : colNames u = ns := by
  induction ns generalizing u with
  | nil =>
    unfold select at h
    cases h
    rfl
  | cons n ns ih =>
    obtain ⟨v, us, _, hs, rfl⟩ := select_ok_cons_iff.mp h
    simp [colNames, dkeys] at ih ⊢
    exact ih hs

theorem select_congr {t t' : Table} {ns : List String}
    (h : ∀ n ∈ ns, getCol t' n = getCol t n) : select t' ns = select t ns := by
  induction ns with
  | nil => rfl
  | cons n ns ih =>
    unfold select
    rw [h n (List.mem_cons_self n ns),
        ih (fun m hm => h m (List.mem_cons_of_mem n hm))]

end SelectLemmas

section ScanLemmas

theorem scan_fst_of_some (cols : List String) (a : String) :
    ∀ n : Option String, (scan cols (some a, n)).1 = some a := by
  induction cols with
  | nil => intro n; rfl
  | cons c cs ih =>
    intro n
    simp only [scan, Option.isNone_some, Bool.false_and, Bool.false_eq_true, if_false]
    split
    · exact ih (some c)
    · exact ih n

theorem scan_snd_of_some (cols : List String) (b : String) :
    ∀ r : Option String, (scan cols (r, some b)).2 = some b := by
  induction cols with
  | nil => intro r; rfl
  | cons c cs ih =>
    intro r
    simp only [scan, Option.isNone_some, Bool.false_and, Bool.false_eq_true, if_false]
    split
    · exact ih (some c)
    · exact ih r

theorem scan_fst_of_none (cols : List String) :
    ∀ n : Option String, (scan cols (none, n)).1 = cols.find? matchesRoll := by
  induction cols with
  | nil => intro n; rfl
  | cons c cs ih =>
    intro n
    simp only [scan, Option.isNone_none, Bool.true_and]
    cases hm : matchesRoll c
    · rw [List.find?_cons_of_neg _ (by simp [hm])]
      simp only [Bool.false_eq_true, if_false]
      split
      · exact ih (some c)
      · exact ih n
    · rw [List.find?_cons_of_pos _ hm]
      simp only [if_true]
      exact scan_fst_of_some cs c n

theorem scan_snd_disjoint (cols : List String)
    (hd : ∀ c ∈ cols, matchesRoll c = true → matchesName c = false) :
    ∀ r : Option String, (scan cols (r, none)).2 = cols.find? matchesName := by
  induction cols with
  | nil => intro r; rfl
  | cons c cs ih =>
    intro r
    have hd' : ∀ x ∈ cs, matchesRoll x = true → matchesName x = false :=
      fun x hx => hd x (List.mem_cons_of_mem c hx)
    simp only [scan, Option.isNone_none, Bool.true_and]
    cases hr : r.isNone && matchesRoll c
    · simp only [Bool.false_eq_true, if_false]
      cases hm : matchesName c
      · rw [List.find?_cons_of_neg _ (by simp [hm])]
        simp only [Bool.and_false, Bool.false_eq_true, if_false]
        exact ih hd' r
      · rw [List.find?_cons_of_pos _ hm]
        simp only [Bool.and_true, Option.isNone_none, if_true]
        exact scan_snd_of_some cs c r
    · rw [Bool.and_eq_true] at hr
      have hmr : matchesRoll c = true := hr.2
      have hmn : matchesName c = false := hd c (List.mem_cons_self c cs) hmr
      rw [List.find?_cons_of_neg _ (by simp [hmn])]
      simp only [if_true]
      exact ih hd' (some c)

theorem scan_ne (cols : List String) :
    ∀ r n : Option String, cols.Nodup →
      (∀ x : String, r = some x → x ∉ cols) →
      (∀ x : String, n = some x → x ∉ cols) →
      (∀ x y : String, r = some x → n = some y → x ≠ y) →
      ∀ a b : String, scan cols (r, n) = (some a, some b) → a ≠ b := by
  induction cols with
  | nil =>
    intro r n _ _ _ hrn a b h
    simp only [scan, Prod.mk.injEq] at h
    exact hrn a b h.1 h.2
  | cons c cs ih =>
    intro r n hnd hr hn hrn a b h
    obtain ⟨hc, hnd'⟩ := List.nodup_cons.mp hnd
    simp only [scan] at h
    split at h
    · -- roll slot takes c
      refine ih (some c) n hnd' ?_ ?_ ?_ a b h
      · intro x hx
        cases hx
        exact hc
      · intro x hx hmem
        exact hn x hx (List.mem_cons_of_mem c hmem)
      · intro x y hx hy
        cases hx
        intro hxy
        exact hn y hy (hxy ▸ List.mem_cons_self c cs)
    · split at h
      · -- name slot takes c
        refine ih r (some c) hnd' ?_ ?_ ?_ a b h
        · intro x hx hmem
          exact hr x hx (List.mem_cons_of_mem c hmem)
        · intro x hx
          cases hx
          exact hc
        · intro x y hx hy
          cases hy
          intro hxy
          exact hr x hx (hxy ▸ List.mem_cons_self c cs)
      · -- neither slot changes
        refine ih r n hnd' ?_ ?_ hrn a b h
        · intro x hx hmem
          exact hr x hx (List.mem_cons_of_mem c hmem)
        · intro x hx hmem
          exact hn x hx (List.mem_cons_of_mem c hmem)

end ScanLemmas

section DetectLemmas

theorem matchesRoll_not_empty {a : String} (h : matchesRoll a = true) :
    a.isEmpty = false := by
  cases he : a.isEmpty
  · rfl
  · have ha : a = "" := (String.isEmpty_iff a).mp he
    subst ha
    exact absurd h (by decide)

theorem matchesName_not_empty {a : String} (h : matchesName a = true) :
    a.isEmpty = false := by
  cases he : a.isEmpty
  · rfl
  · have ha : a = "" := (String.isEmpty_iff a).mp he
    subst ha
    exact absurd h (by decide)

theorem detect_of_scan_both {cols : List String} {a b : String}
    (h : scan cols (none, none) = (some a, some b))
    (ha : a.isEmpty = false) (hb : b.isEmpty = false) :
    detect_data_columns cols = Except.ok (a, b) := by
  unfold detect_data_columns
  rw [h]
  simp [pyOr, ha, hb]

end DetectLemmas

section TableLemmas

theorem getCol_setCol_self (t : Table) (n : String) (v : List Cell) :
    getCol (setCol t n v) n = some v := dlookup_dinsert_self t n v

theorem getCol_setCol_ne (t : Table) (n m : String) (v : List Cell) (h : m ≠ n) :
    getCol (setCol t n v) m = getCol t m := dlookup_dinsert_ne t n m v h

theorem colNames_setCol (t : Table) (n : String) (v : List Cell) :
    colNames (setCol t n v) = namesAfterSet (colNames t) n := dkeys_dinsert t n v

theorem mem_of_contains_eq_true {ns : List String} {n : String}
    (h : ns.contains n = true) : n ∈ ns := by
  rw [List.contains_eq_any_beq] at h
  obtain ⟨x, hx, hxeq⟩ := List.any_eq_true.mp h
  exact (show n = x by simpa using hxeq) ▸ hx

theorem colNames_add_total (t : Table) :
    colNames (add_total_if_missing t) = namesAfterSet (colNames t) "Total" := by
  unfold add_total_if_missing
  cases h : (colNames t).contains "Total"
  · simp only [h, Bool.false_eq_true, if_false]
    exact colNames_setCol t "Total" _
  · simp [namesAfterSet, mem_of_contains_eq_true h]

theorem otherColumns_namesAfterSet_total (ns : List String) (r n : String) :
    otherColumns (namesAfterSet ns "Total") r n = otherColumns ns r n := by
  unfold namesAfterSet otherColumns
  cases h : ns.contains "Total"
  · simp [h, List.filter_append]
  · simp [h]

theorem mem_otherColumns_ne_total {ns : List String} {r n c : String}
    (h : c ∈ otherColumns ns r n) : c ≠ "Total" := by
  have := (List.mem_filter.mp h).2
  intro hc
  subst hc
  simp at this

theorem count_namesAfterSet_ne (ns : List String) (n a : String) (h : a ≠ n) :
    (namesAfterSet ns n).count a = ns.count a := by
  unfold namesAfterSet
  cases hc : ns.contains n
  · simp [List.count_append, List.count_cons, h]
  · simp

theorem not_mem_of_contains_eq_false {ns : List String} {n : String}
    (h : ns.contains n = false) : n ∉ ns := by
  intro hm
  rw [List.contains_eq_any_beq] at h
  have := List.any_eq_false.mp h n hm
  simp at this

theorem count_namesAfterSet_self (ns : List String) (n : String) (h : ns.Nodup) :
    (namesAfterSet ns n).count n = 1 := by
  unfold namesAfterSet
  cases hc : ns.contains n
  · have hmem : n ∉ ns := not_mem_of_contains_eq_false hc
    simp [List.count_append, List.count_eq_zero.mpr hmem]
  · have hmem : n ∈ ns := by
      rw [List.contains_eq_any_beq] at hc
      obtain ⟨x, hx, hxeq⟩ := List.any_eq_true.mp hc
      have : n = x := by simpa using hxeq
      exact this ▸ hx
    simp [List.count_eq_one_of_mem h hmem]

theorem count_otherColumns (ns : List String) (r n a : String)
    (h1 : a ≠ r) (h2 : a ≠ n) (h3 : a ≠ "Total") :
    (otherColumns ns r n).count a = ns.count a := by
  unfold otherColumns
  apply List.count_filter
  simp [h1, h2, h3]

theorem colNames_cons (p : String × List Cell) (t : Table) :
    colNames (p :: t) = p.1 :: colNames t := rfl

theorem totalsOf_length (sub : Table) (n : Nat) : (totalsOf sub n).length = n := by
  simp [totalsOf]

theorem totalsOf_get (sub : Table) (n i : Nat) (h : i < n) :
    (totalsOf sub n).get? i = some (Cell.num (countPresentRow sub i)) := by
  unfold totalsOf
  rw [List.get?_map, List.get?_range h]
  rfl

end TableLemmas

section LedgerLemmas

theorem dlookup_foldl_false_of_not_mem {vals : List Cell} {init : Ledger} {k : String}
    (h : ∀ v ∈ vals, cellStr v ≠ k) :
    dlookup (vals.foldl (fun l cell => dinsert l (cellStr cell) false) init) k =
      dlookup init k := by
  induction vals generalizing init with
  | nil => rfl
  | cons v vals ih =>
    simp only [List.foldl_cons]
    rw [ih (fun w hw => h w (List.mem_cons_of_mem v hw))]
    exact dlookup_dinsert_ne init (cellStr v) k false
      (fun he => h v (List.mem_cons_self v vals) he.symm)

theorem dlookup_foldl_false_of_mem {vals : List Cell} {k : String}
    (h : ∃ v ∈ vals, cellStr v = k) :
    ∀ init : Ledger,
      dlookup (vals.foldl (fun l cell => dinsert l (cellStr cell) false) init) k =
        some false := by
  induction vals with
  | nil => exact absurd h (by simp)
  | cons v vals ih =>
    intro init
    simp only [List.foldl_cons]
    by_cases hm : ∃ w ∈ vals, cellStr w = k
    · exact ih hm _
    · have hv : cellStr v = k := by
        obtain ⟨w, hw, hwk⟩ := h
        rcases List.mem_cons.mp hw with rfl | hw'
        · exact hwk
        · exact absurd ⟨w, hw', hwk⟩ hm
      push_neg at hm
      rw [dlookup_foldl_false_of_not_mem hm, hv]
      exact dlookup_dinsert_self init k false

end LedgerLemmas

section InversionLemmas

theorem add_new_class_ok_inv {fp : String} {t : Table} {cls : ClassRecord}
    (h : add_new_class fp t = Except.ok cls) :
    detect_data_columns (colNames (add_total_if_missing t)) =
        Except.ok (cls.roll_column, cls.name_column) ∧
    reorder (add_total_if_missing t) cls.roll_column cls.name_column =
        Except.ok cls.dataframe ∧
    cls.file_path = fp := by
  simp only [add_new_class] at h
  split at h
  · cases h
  · split at h
    · cases h
    · cases h
      refine ⟨?_, ?_, rfl⟩ <;> assumption

theorem reorder_ok_inv {df : Table} {roll_col name_col : String} {out : Table}
    (h : reorder df roll_col name_col = Except.ok out) :
    ∃ rv nv tv rest,
      getCol df roll_col = some rv ∧ getCol df name_col = some nv ∧
      getCol df "Total" = some tv ∧
      select df (otherColumns (colNames df) roll_col name_col) = Except.ok rest ∧
      out = (roll_col, rv) :: (name_col, nv) :: ("Total", tv) :: rest := by
  simp only [reorder, List.cons_append, List.nil_append] at h
  obtain ⟨rv, u1, h1, h1s, rfl⟩ := select_ok_cons_iff.mp h
  obtain ⟨nv, u2, h2, h2s, rfl⟩ := select_ok_cons_iff.mp h1s
  obtain ⟨tv, u3, h3, h3s, rfl⟩ := select_ok_cons_iff.mp h2s
  exact ⟨rv, nv, tv, u3, h1, h2, h3, h3s, rfl⟩

theorem save_ok_inv {cls : ClassRecord} {ledger : Ledger} {date : String} {out : Table}
    (h : save_attendance cls ledger date = Except.ok out) :
    ∃ rollVals sub,
      getCol cls.dataframe cls.roll_column = some rollVals ∧
      select (setCol cls.dataframe date (attendance_list_of ledger rollVals))
        (otherColumns
          (colNames (setCol cls.dataframe date (attendance_list_of ledger rollVals)))
          cls.roll_column cls.name_column) = Except.ok sub ∧
      reorder
        (setCol (setCol cls.dataframe date (attendance_list_of ledger rollVals)) "Total"
          (totalsOf sub
            (nrows (setCol cls.dataframe date (attendance_list_of ledger rollVals)))))
        cls.roll_column cls.name_column = Except.ok out := by
  simp only [save_attendance] at h
  split at h
  · cases h
  · split at h
    · cases h
    · rename_i v hroll x u hsub
      exact ⟨v, u, hroll, hsub, h⟩

theorem getCol_out_total {df : Table} {r n : String} {rv nv tv : List Cell} {rest : Table}
    (h1 : getCol df r = some rv) (h2 : getCol df n = some nv)
    (h3 : getCol df "Total" = some tv) :
    getCol ((r, rv) :: (n, nv) :: ("Total", tv) :: rest) "Total" = some tv := by
  rw [getCol, dlookup_cons]
  by_cases hr : r = "Total"
  · rw [hr] at h1
    rw [h1] at h3
    injection h3 with h4
    simp [hr, h4]
  · rw [dlookup_cons]
    by_cases hn : n = "Total"
    · rw [hn] at h2
      rw [h2] at h3
      injection h3 with h4
      simp [hr, hn, h4]
    · simp [hr, hn, dlookup_cons]

theorem attendanceColumns_shape {r n : String} {rv nv tv : List Cell} {rest : Table}
    {ns : List String} (hrest : colNames rest = otherColumns ns r n) :
    attendanceColumns ((r, rv) :: (n, nv) :: ("Total", tv) :: rest) r n = rest := by
  unfold attendanceColumns
  have e1 : (!(r == r || r == n || r == "Total")) = false := by simp
  have e2 : (!(n == r || n == n || n == "Total")) = false := by simp
  have e3 : (!(("Total" : String) == r || ("Total" : String) == n ||
      ("Total" : String) == "Total")) = false := by simp
  simp only [List.filter_cons, e1, e2, e3, Bool.false_eq_true, if_false]
  apply List.filter_eq_self.mpr
  intro p hp
  have hmem : p.1 ∈ colNames rest := List.mem_map_of_mem Prod.fst hp
  rw [hrest] at hmem
  exact (List.mem_filter.mp hmem).2

end InversionLemmas

section StateLemmas

theorem save_state_fst (s : AppState) (fs : FileSystem) (c d : String) :
    (save_attendance_state s fs c d).1 = s := by
  unfold save_attendance_state
  split <;> rfl

theorem save_state_third (s : AppState) (fs : FileSystem) (c d : String) :
    (save_attendance_state s fs c d).2.2 = (save_result s c d).map Prod.snd := by
  unfold save_attendance_state
  cases h : save_result s c d with
  | error e => rfl
  | ok po =>
    obtain ⟨p, out⟩ := po
    rfl

end StateLemmas

/-- C9: the save step never mutates the in-memory state.  Whether the save
succeeds or fails, the state component of `save_attendance_state` is
exactly the input state: the merge of lines 266-289 operates on a copy of
the dataframe, and neither `classes_data` nor `attendance_records` is
assigned anywhere in `save_attendance`, so the date column and the
recomputed Total reach only the written file. -/
theorem C9_save_frame (s : AppState) (fs : FileSystem) (class_name date : String) :
    (save_attendance_state s fs class_name date).1 = s :=
  save_state_fst s fs class_name date

/-- C7: for a class with an open session and a student id that is a key of
the current ledger, toggling flips the stored boolean and communicates the
resulting state (the Bool that selects the button colour at line 260) to
the caller: the returned flag and the stored flag are both the negation of
the previous value. -/
theorem C7_toggle_flips (s : AppState) (c sid : String) (L : Ledger) (cur : Bool)
    (hL : dlookup s.attendance_records c = some L)
    (hcur : dlookup L sid = some cur) :
    ∃ s1, toggle_attendance s c sid = Except.ok (s1, !cur) ∧
      ∃ L1, dlookup s1.attendance_records c = some L1 ∧
        dlookup L1 sid = some (!cur) := by
  simp only [toggle_attendance, hL, hcur]
  refine ⟨_, rfl, dinsert L sid (!cur), ?_, ?_⟩
  · exact dlookup_dinsert_self s.attendance_records c _
  · exact dlookup_dinsert_self L sid (!cur)

/-- Witness for C7 at a concrete state: class "A" with ledger
mapping "101" to false; the toggle returns true and stores true. -/
theorem C7_witness :
    (dlookup (AppState.mk [] [("A", [("101", false)])]).attendance_records "A" =
        some [("101", false)] ∧
      dlookup [("101", false)] "101" = some false) ∧
    (∃ s1, toggle_attendance (AppState.mk [] [("A", [("101", false)])]) "A" "101" =
        Except.ok (s1, !false) ∧
      ∃ L1, dlookup s1.attendance_records "A" = some L1 ∧
        dlookup L1 "101" = some (!false)) :=
  ⟨⟨rfl, rfl⟩, C7_toggle_flips (AppState.mk [] [("A", [("101", false)])]) "A" "101"
    [("101", false)] false rfl rfl⟩

/-- C10: the pattern scan of lines 122-127 never assigns the same column
to both slots: the elif guarantees that within one iteration the name test
runs only when the roll test did not fire, so whenever both slots are
resolved by the scan itself (no fallback), the two columns are distinct,
for any duplicate-free column list (pandas mangles duplicate labels when
reading a sheet). -/
theorem C10_scan_distinct (cols : List String) (a b : String)
    (hnd : cols.Nodup) (h : scan cols (none, none) = (some a, some b)) :
    a ≠ b :=
  scan_ne cols none none hnd (fun _ hx => nomatch hx) (fun _ hx => nomatch hx)
    (fun _ _ hx _ => nomatch hx) a b h

/-- Witness for C10 on the column list ["Roll", "Name"], where the scan
resolves both slots. -/
theorem C10_witness :
    (["Roll", "Name"].Nodup ∧
      scan ["Roll", "Name"] (none, none) = (some "Roll", some "Name")) ∧
    "Roll" ≠ "Name" :=
  ⟨⟨by decide, by rfl⟩, C10_scan_distinct ["Roll", "Name"] "Roll" "Name" (by decide) (by rfl)⟩

/-- C3 counterexample: in ["ID Name", "Roll"] the column "Roll" matches an
identifier pattern and the distinct column "ID Name" matches a name
pattern, so the claim promises a matched distinct pair; but the scan
assigns "ID Name" to the roll slot first (its lower-cased form contains
"id"), the elif is skipped in that iteration, no later column matches a
name pattern, and the name slot is filled by the index-1 fallback with
"Roll", which matches no name pattern. -/
theorem C3_counterexample : ¬ detectReturnsMatchedPair := by
  intro h
  obtain ⟨a, b, hdet, hne, hra, hnb⟩ := h ["ID Name", "Roll"]
    ⟨"Roll", by decide, "ID Name", by decide, by decide, by decide, by decide⟩
  have hd : detect_data_columns ["ID Name", "Roll"] = Except.ok ("ID Name", "Roll") := by rfl
  rw [hd] at hdet
  injection hdet with h1
  rw [Prod.mk.injEq] at h1
  obtain ⟨ha, hb⟩ := h1
  rw [← hb] at hnb
  exact absurd hnb (by decide)

/-- C3 amended: the promised behaviour holds as soon as no single column
matches both pattern sets.  If the identifier-matchers and name-matchers
of the list are disjoint, and each set of matchers is non-empty, detection
succeeds and returns the first identifier-matching column and the first
name-matching column, which match their patterns and are distinct,
regardless of their positions. -/
theorem C3_detect_matched_pair (cols : List String)
    (hdisj : ∀ c ∈ cols, matchesRoll c = true → matchesName c = false)
    (hr : ∃ c ∈ cols, matchesRoll c = true)
    (hn : ∃ c ∈ cols, matchesName c = true) :
    ∃ a b, detect_data_columns cols = Except.ok (a, b) ∧
      cols.find? matchesRoll = some a ∧ cols.find? matchesName = some b ∧
      matchesRoll a = true ∧ matchesName b = true ∧ a ≠ b := by
  obtain ⟨c1, hc1, hmc1⟩ := hr
  obtain ⟨c2, hc2, hmc2⟩ := hn
  obtain ⟨a, hfa⟩ : ∃ a, cols.find? matchesRoll = some a := by
    cases hf : cols.find? matchesRoll with
    | none => exact absurd hmc1 (by simpa using List.find?_eq_none.mp hf c1 hc1)
    | some a => exact ⟨a, rfl⟩
  obtain ⟨b, hfb⟩ : ∃ b, cols.find? matchesName = some b := by
    cases hf : cols.find? matchesName with
    | none => exact absurd hmc2 (by simpa using List.find?_eq_none.mp hf c2 hc2)
    | some b => exact ⟨b, rfl⟩
  have hma : matchesRoll a = true := List.find?_some hfa
  have hmb : matchesName b = true := List.find?_some hfb
  have hsc : scan cols (none, none) = (some a, some b) := by
    have e1 : (scan cols (none, none)).1 = some a := by
      rw [scan_fst_of_none cols none, hfa]
    have e2 : (scan cols (none, none)).2 = some b := by
      rw [scan_snd_disjoint cols hdisj none, hfb]
    exact Prod.ext e1 e2
  refine ⟨a, b,
    detect_of_scan_both hsc (matchesRoll_not_empty hma) (matchesName_not_empty hmb),
    hfa, hfb, hma, hmb, ?_⟩
  intro hab
  have hfalse : matchesName a = false := hdisj a (List.mem_of_find?_eq_some hfa) hma
  rw [hab, hmb] at hfalse
  cases hfalse

/-- C4 counterexample: loading a table with columns ["Student Name",
"Marks"] succeeds, yet the identifier and name columns of the resulting
record coincide: the scan resolves only the name slot (to "Student Name",
which contains "name"), and the roll fallback then picks columns[0], the
very same column, so the claimed distinctness invariant fails. -/
theorem C4_counterexample :
    (add_new_class "marks.xlsx"
        [("Student Name", [Cell.str "Avi"]), ("Marks", [Cell.num 5])]).map
      (fun cls => (cls.roll_column, cls.name_column)) =
    Except.ok ("Student Name", "Student Name") := by rfl

/-- C4 amended: for every successfully loaded record, the identifier
column, the name column and a column literally named "Total" are present
in the table (and "Total" is readable); the identifier and name columns
however need not be distinct: they coincide whenever the pattern scan
resolves one role and the positional fallback hands the other role the
same column. -/
theorem C4_record_invariant (fp : String) (t : Table) (cls : ClassRecord)
    (h : add_new_class fp t = Except.ok cls) :
    cls.roll_column ∈ colNames cls.dataframe ∧
    cls.name_column ∈ colNames cls.dataframe ∧
    "Total" ∈ colNames cls.dataframe ∧
    ∃ tv, getCol cls.dataframe "Total" = some tv := by
  obtain ⟨hdet, hre, hfp⟩ := add_new_class_ok_inv h
  obtain ⟨rv, nv, tv, rest, h1, h2, h3, h4, hout⟩ := reorder_ok_inv hre
  refine ⟨?_, ?_, ?_, tv, ?_⟩
  · rw [hout]; simp [colNames, dkeys]
  · rw [hout]; simp [colNames, dkeys]
  · rw [hout]; simp [colNames, dkeys]
  · rw [hout]; exact getCol_out_total h1 h2 h3

/-- Witness for the amended C4 on a normal two-column roster. -/
theorem C4_witness :
    add_new_class "A.xlsx" [("Roll", [Cell.num 101]), ("Name", [Cell.str "X"])] =
      Except.ok
        { dataframe := [("Roll", [Cell.num 101]), ("Name", [Cell.str "X"]),
            ("Total", [Cell.num 0])],
          file_path := "A.xlsx", roll_column := "Roll", name_column := "Name" } ∧
    ("Roll" ∈ colNames [("Roll", [Cell.num 101]), ("Name", [Cell.str "X"]),
        ("Total", [Cell.num 0])] ∧
      "Name" ∈ colNames [("Roll", [Cell.num 101]), ("Name", [Cell.str "X"]),
        ("Total", [Cell.num 0])] ∧
      "Total" ∈ colNames [("Roll", [Cell.num 101]), ("Name", [Cell.str "X"]),
        ("Total", [Cell.num 0])] ∧
      ∃ tv, getCol [("Roll", [Cell.num 101]), ("Name", [Cell.str "X"]),
        ("Total", [Cell.num 0])] "Total" = some tv) :=
  ⟨by rfl, C4_record_invariant "A.xlsx"
    [("Roll", [Cell.num 101]), ("Name", [Cell.str "X"])] _ (by rfl)⟩

/-- C8 counterexample: an input table with a single column "X" has fewer
than two columns, and the scan leaves the name slot unresolved; yet the
load succeeds instead of raising: the automatically appended "Total"
column becomes columns[1], is returned as the name column, and a record is
created and stored. -/
theorem C8_counterexample :
    (colNames [(("X" : String), [Cell.num 7])]).length < 2 ∧
    (scan (colNames (add_total_if_missing [("X", [Cell.num 7])])) (none, none)).2 = none ∧
    (add_new_class "x.xlsx" [("X", [Cell.num 7])]).map
      (fun cls => (cls.roll_column, cls.name_column)) = Except.ok ("X", "Total") ∧
    (add_new_class_state (AppState.mk [] []) "x.xlsx" [("X", [Cell.num 7])]).classes_data ≠ [] := by
  refine ⟨by decide, by rfl, by rfl, by decide⟩

/-- C8 amended: the degenerate case that raises is the column list on
which the inference actually runs (after the automatic Total append)
having fewer than two labels while the name slot is unresolved by the
scan; then load fails (the columns[1] access is an IndexError, caught at
line 108 with an error message) and no record is stored.  An input table
with one non-Total column does not raise: the appended Total column itself
becomes the columns[1] fallback. -/
theorem C8_load_error (s : AppState) (fp : String) (t : Table)
    (hlen : (colNames (add_total_if_missing t)).length < 2)
    (hname : (scan (colNames (add_total_if_missing t)) (none, none)).2 = none) :
    add_new_class fp t = Except.error () ∧ add_new_class_state s fp t = s := by
  have hidx : (colNames (add_total_if_missing t)).get? 1 = none :=
    List.get?_eq_none.mpr (by omega)
  have herr : add_new_class fp t = Except.error () := by
    have hdet : detect_data_columns (colNames (add_total_if_missing t)) =
        Except.error () := by
      unfold detect_data_columns
      rcases hscan : scan (colNames (add_total_if_missing t)) (none, none) with ⟨r, n⟩
      rw [hscan] at hname
      simp only at hname
      subst hname
      cases hro : pyOr r (getIdx (colNames (add_total_if_missing t)) 0) with
      | error e => cases e; simp [hro]
      | ok roll_col =>
        simp only [hro]
        rw [List.get?_eq_getElem?] at hidx
        simp [pyOr, getIdx, hidx]
    simp only [add_new_class, hdet]
  refine ⟨herr, ?_⟩
  unfold add_new_class_state
  rw [herr]

/-- Witness for the amended C8: the one-column table [("Total", [0])]
keeps a single label after the Total check, the scan resolves nothing,
and the load errors while the store is unchanged. -/
theorem C8_witness :
    ((colNames (add_total_if_missing [(("Total" : String), [Cell.num 0])])).length < 2 ∧
      (scan (colNames (add_total_if_missing [(("Total" : String), [Cell.num 0])]))
        (none, none)).2 = none) ∧
    (add_new_class "t.xlsx" [(("Total" : String), [Cell.num 0])] = Except.error () ∧
      add_new_class_state (AppState.mk [] []) "t.xlsx" [(("Total" : String), [Cell.num 0])] =
        AppState.mk [] []) :=
  ⟨⟨by decide, by rfl⟩,
    C8_load_error (AppState.mk [] []) "t.xlsx" [("Total", [Cell.num 0])]
      (by decide) (by rfl)⟩

/-- Witness for the amended C3 on ["Student Name", "Roll No"]: disjoint
matchers, and detection returns ("Roll No", "Student Name"). -/
theorem C3_witness :
    ((∀ c ∈ ["Student Name", "Roll No"], matchesRoll c = true → matchesName c = false) ∧
      (∃ c ∈ ["Student Name", "Roll No"], matchesRoll c = true) ∧
      (∃ c ∈ ["Student Name", "Roll No"], matchesName c = true)) ∧
    (∃ a b, detect_data_columns ["Student Name", "Roll No"] = Except.ok (a, b) ∧
      ["Student Name", "Roll No"].find? matchesRoll = some a ∧
      ["Student Name", "Roll No"].find? matchesName = some b ∧
      matchesRoll a = true ∧ matchesName b = true ∧ a ≠ b) :=
  ⟨⟨by decide, by decide, by decide⟩,
    C3_detect_matched_pair ["Student Name", "Roll No"] (by decide) (by decide) (by decide)⟩

/-- C6 counterexample: along the realisable trace of `staleTrace` (load
"A.xlsx", open, toggle "101" present, reload "dirB/A.xlsx" under the same
class name with roster {202}, open again), the final session-open leaves
the stale entry ("101", true) in the ledger of class "A": the ledger is
not reset to a fresh all-absent state and a present-flag carries over,
because lines 161-163 only create the dict when missing and the grid loop
merely overwrites the keys of the current roster. -/
theorem C6_counterexample :
    staleTrace.attendance_records = [("A", [("101", true), ("202", false)])] ∧
    (dlookup staleTrace.classes_data "A").map
      (fun cls => getCol cls.dataframe cls.roll_column) = some (some [Cell.str "202"]) :=
  ⟨by rfl, by rfl⟩

/-- C6 amended: opening a session sets the flag of every identifier of the
current roster to false in the class ledger (creating the dict when it is
missing), but the ledger is merged in place, not replaced wholesale:
entries under keys outside the current roster (reachable when a same-name
reload changed the roster) keep their previous values. -/
theorem C6_open_resets_roster (s : AppState) (c : String) (s1 : AppState)
    (cls : ClassRecord) (rollVals : List Cell)
    (hcls : dlookup s.classes_data c = some cls)
    (hroll : getCol cls.dataframe cls.roll_column = some rollVals)
    (h : open_attendance_screen s c = Except.ok s1) :
    ∃ L1, dlookup s1.attendance_records c = some L1 ∧
      (∀ v ∈ rollVals, dlookup L1 (cellStr v) = some false) ∧
      (∀ k : String, (∀ v ∈ rollVals, cellStr v ≠ k) →
        dlookup L1 k = dlookup ((dlookup s.attendance_records c).getD []) k) := by
  simp only [open_attendance_screen, hcls, hroll] at h
  by_cases hs : (dlookup s.attendance_records c).isSome = true
  · rw [if_pos hs] at h
    injection h with h
    subst h
    refine ⟨_, dlookup_dinsert_self _ c _, ?_, ?_⟩
    · intro v hv
      exact dlookup_foldl_false_of_mem ⟨v, hv, rfl⟩ _
    · intro k hk
      rw [dlookup_foldl_false_of_not_mem hk]
  · rw [if_neg hs] at h
    injection h with h
    subst h
    have hnone : dlookup s.attendance_records c = none :=
      Option.not_isSome_iff_eq_none.mp hs
    refine ⟨_, dlookup_dinsert_self _ c _, ?_, ?_⟩
    · intro v hv
      exact dlookup_foldl_false_of_mem ⟨v, hv, rfl⟩ _
    · intro k hk
      rw [dlookup_foldl_false_of_not_mem hk, dlookup_dinsert_self, hnone]
      rfl

/-- C2: the column-ordering invariant.  After a successful load the
columns are [roll, name, "Total", remaining input columns in their
original relative order]; after a successful save the columns are [roll,
name, "Total", remaining columns of the stored dataframe, with the date
label appended at the end when it was new, in their original relative
order] (`otherColumns` is order-preserving filtering). -/
theorem C2_column_order (fp : String) (t : Table) (rec1 : ClassRecord)
    (cls : ClassRecord) (ledger : Ledger) (date : String) (out : Table) :
    (add_new_class fp t = Except.ok rec1 →
      colNames rec1.dataframe = rec1.roll_column :: rec1.name_column :: "Total" ::
        otherColumns (colNames t) rec1.roll_column rec1.name_column) ∧
    (save_attendance cls ledger date = Except.ok out →
      colNames out = cls.roll_column :: cls.name_column :: "Total" ::
        otherColumns (namesAfterSet (colNames cls.dataframe) date)
          cls.roll_column cls.name_column) := by
  constructor
  · intro h
    obtain ⟨hdet, hre, hfp⟩ := add_new_class_ok_inv h
    obtain ⟨rv, nv, tv, rest, h1, h2, h3, h4, hout⟩ := reorder_ok_inv hre
    rw [hout, colNames_cons, colNames_cons, colNames_cons, select_ok_colNames h4,
      colNames_add_total, otherColumns_namesAfterSet_total]
  · intro h
    obtain ⟨rollVals, sub, hroll, hsub, hre⟩ := save_ok_inv h
    obtain ⟨rv, nv, tv, rest, h1, h2, h3, h4, hout⟩ := reorder_ok_inv hre
    rw [hout, colNames_cons, colNames_cons, colNames_cons, select_ok_colNames h4,
      colNames_setCol, otherColumns_namesAfterSet_total, colNames_setCol]

/-- C1: after every successful save, the Total column of the written table
has, at every row index, exactly the number of attendance columns (the
columns of the written table other than the roll, name and Total columns)
whose cell at that row is exactly the string "Present" (so the
case-variant "present" does not count, `Cell.str` equality being exact). -/
theorem C1_total_counts (cls : ClassRecord) (ledger : Ledger) (date : String) (out : Table)
    (h : save_attendance cls ledger date = Except.ok out) :
    ∃ tvals, getCol out "Total" = some tvals ∧
      ∀ i, i < tvals.length →
        tvals.get? i = some (Cell.num (countPresentRow
          (attendanceColumns out cls.roll_column cls.name_column) i)) := by
  obtain ⟨rollVals, sub, hroll, hsub, hre⟩ := save_ok_inv h
  set df1 := setCol cls.dataframe date (attendance_list_of ledger rollVals) with hdf1
  set tot := totalsOf sub (nrows df1) with htot
  set df2 := setCol df1 "Total" tot with hdf2
  obtain ⟨rv, nv, tv, rest, h1, h2, h3, h4, hout⟩ := reorder_ok_inv hre
  have h4' := h4
  have h5 : getCol df2 "Total" = some tot := by
    rw [hdf2]
    exact getCol_setCol_self df1 "Total" tot
  have htv : tot = tv := Option.some.inj (h5.symm.trans h3)
  have hoc : otherColumns (colNames df2) cls.roll_column cls.name_column =
      otherColumns (colNames df1) cls.roll_column cls.name_column := by
    rw [hdf2, colNames_setCol, otherColumns_namesAfterSet_total]
  have hsel : select df2 (otherColumns (colNames df1) cls.roll_column cls.name_column) =
      select df1 (otherColumns (colNames df1) cls.roll_column cls.name_column) := by
    apply select_congr
    intro m hm
    rw [hdf2]
    exact getCol_setCol_ne df1 "Total" m tot (mem_otherColumns_ne_total hm)
  rw [hoc, hsel, hsub] at h4
  have hrs : rest = sub := (Except.ok.inj h4).symm
  subst htv
  refine ⟨tot, ?_, ?_⟩
  · rw [hout]
    exact getCol_out_total h1 h2 h3
  · intro i hi
    rw [htot, totalsOf_length] at hi
    rw [htot, totalsOf_get sub (nrows df1) i hi]
    rw [hout, attendanceColumns_shape (select_ok_colNames h4'), hrs]

/-- C5: saving twice in a row on the same date with no toggles in between
is idempotent: the in-memory state is untouched by the first save, so the
second save computes the identical written table (hence an identical Total
column), and that table contains exactly one column labelled with the date
(an existing same-date column is overwritten in place by line 279, no
duplicate is created), provided the stored dataframe has duplicate-free
labels (pandas guarantees this on read) and the date label, of shape
DD-MM-YY, is none of the roll, name and Total labels. -/
theorem C5_save_idempotent (s : AppState) (fs fs2 : FileSystem) (c date : String)
    (cls : ClassRecord) (out : Table)
    (hcls : dlookup s.classes_data c = some cls)
    (hnd : (colNames cls.dataframe).Nodup)
    (hd1 : date ≠ cls.roll_column) (hd2 : date ≠ cls.name_column) (hd3 : date ≠ "Total")
    (h : (save_attendance_state s fs c date).2.2 = Except.ok out) :
    (save_attendance_state (save_attendance_state s fs c date).1 fs2 c date).2.2 =
        Except.ok out ∧
    (colNames out).count date = 1 := by
  rw [save_state_third] at h
  refine ⟨?_, ?_⟩
  · rw [save_state_fst, save_state_third]
    exact h
  · unfold save_result at h
    simp only [hcls] at h
    cases hled : dlookup s.attendance_records c with
    | none => simp [hled, Except.map] at h
    | some ledger =>
      simp only [hled] at h
      cases hsa : save_attendance cls ledger date with
      | error e => simp [hsa, Except.map] at h
      | ok out1 =>
        simp only [hsa, Except.map] at h
        have hoe : out1 = out := by
          cases h
          rfl
        subst hoe
        obtain ⟨rollVals, sub, hroll, hsub, hre⟩ := save_ok_inv hsa
        obtain ⟨rv, nv, tv, rest, h1, h2, h3, h4, hout⟩ := reorder_ok_inv hre
        rw [hout, colNames_cons, colNames_cons, colNames_cons,
          List.count_cons, List.count_cons, List.count_cons]
        simp only [beq_iff_eq, Ne.symm hd1, Ne.symm hd2, Ne.symm hd3, if_false,
          Nat.add_zero]
        rw [select_ok_colNames h4,
          count_otherColumns _ _ _ _ hd1 hd2 hd3,
          colNames_setCol, count_namesAfterSet_ne _ _ _ hd3,
          colNames_setCol, count_namesAfterSet_self _ _ hnd]

/-- Witness for C6 on a fresh open: every roster id is set to false and
untouched keys read as before. -/
theorem C6_witness :
    (dlookup s6.classes_data "B" = some cls6 ∧
      getCol cls6.dataframe cls6.roll_column = some [Cell.str "7"] ∧
      open_attendance_screen s6 "B" = Except.ok s6open) ∧
    (∃ L1, dlookup s6open.attendance_records "B" = some L1 ∧
      (∀ v ∈ [Cell.str "7"], dlookup L1 (cellStr v) = some false) ∧
      (∀ k : String, (∀ v ∈ [Cell.str "7"], cellStr v ≠ k) →
        dlookup L1 k = dlookup ((dlookup s6.attendance_records "B").getD []) k)) :=
  ⟨⟨rfl, rfl, by rfl⟩,
    C6_open_resets_roster s6 "B" s6open cls6 [Cell.str "7"] rfl rfl (by rfl)⟩

/-- Witness for C2: loading `tableW2` orders the columns as
[Roll, Name, Total], and saving `clsW` on a new date orders them as
[Roll, Name, Total, 01-01-24, 02-01-24]. -/
theorem C2_witness :
    (add_new_class "A.xlsx" tableW2 = Except.ok recW ∧
      colNames recW.dataframe = recW.roll_column :: recW.name_column :: "Total" ::
        otherColumns (colNames tableW2) recW.roll_column recW.name_column) ∧
    (save_attendance clsW [("1", true)] "02-01-24" = Except.ok outW ∧
      colNames outW = clsW.roll_column :: clsW.name_column :: "Total" ::
        otherColumns (namesAfterSet (colNames clsW.dataframe) "02-01-24")
          clsW.roll_column clsW.name_column) :=
  ⟨⟨by rfl,
    (C2_column_order "A.xlsx" tableW2 recW clsW [("1", true)] "02-01-24" outW).1 (by rfl)⟩,
   ⟨by rfl,
    (C2_column_order "A.xlsx" tableW2 recW clsW [("1", true)] "02-01-24" outW).2 (by rfl)⟩⟩

/-- Witness for C1: saving `clsW` with student "1" present yields Total
[2, 0]: the lower-case "present" cell of row 2 is not counted. -/
theorem C1_witness :
    save_attendance clsW [("1", true)] "02-01-24" = Except.ok outW ∧
    (∃ tvals, getCol outW "Total" = some tvals ∧
      ∀ i, i < tvals.length →
        tvals.get? i = some (Cell.num (countPresentRow
          (attendanceColumns outW clsW.roll_column clsW.name_column) i))) :=
  ⟨by rfl, C1_total_counts clsW [("1", true)] "02-01-24" outW (by rfl)⟩

/-- Witness for C5: saving `s5` twice on "05-06-24" yields the same table
`out5`, whose labels hold the date exactly once. -/
theorem C5_witness :
    (dlookup s5.classes_data "A" = some cls5 ∧
      (colNames cls5.dataframe).Nodup ∧
      ("05-06-24" ≠ cls5.roll_column ∧ "05-06-24" ≠ cls5.name_column ∧
        ("05-06-24" : String) ≠ "Total") ∧
      (save_attendance_state s5 [] "A" "05-06-24").2.2 = Except.ok out5) ∧
    ((save_attendance_state (save_attendance_state s5 [] "A" "05-06-24").1 []
        "A" "05-06-24").2.2 = Except.ok out5 ∧
      (colNames out5).count "05-06-24" = 1) :=
  ⟨⟨rfl, by decide, ⟨by decide, by decide, by decide⟩, by rfl⟩,
   C5_save_idempotent s5 [] [] "A" "05-06-24" cls5 out5 rfl (by decide)
     (by decide) (by decide) (by decide) (by rfl)⟩

end Attendance
